import Mathlib

/-!
Verification of the slide-duration allocation and timeline-assembly logic of
the webinar-script application (src/app.py).

Durations are modelled as rationals (ℚ); Python lists become Lean lists.
In-place mutation of the caller-shared durations list is modelled by
explicit state passing: the post-call value of the list is returned.
-/

namespace Webinar

/-- Models the Python statement `l[-1] += x` on a list `l`: the last element is
increased by `x`, every other element is unchanged.  On the empty list the
Python expression raises; callers handle that case separately. -/
def addToLast : List ℚ → ℚ → List ℚ
  | [], _ => []
  | [a], x => [a + x]
  | a :: b :: rest, x => a :: addToLast (b :: rest) x

/-- Embeds the shortfall-extension (timeline-normalization) step of
`generate_video_with_ffmpeg` (src/app.py lines 111-116):

    total_video_duration = sum(section_durations)
    if total_video_duration < audio_duration:
        section_durations[-1] += audio_duration - total_video_duration

`none` models the failure path: with an empty list, `section_durations[-1]`
raises an IndexError, caught by the surrounding `except` (lines 144-146),
which reports an error to the user and returns `None`. -/
def normalize_durations (section_durations : List ℚ) (audio_duration : ℚ) :
    Option (List ℚ) :=
  if section_durations.sum < audio_duration then
    match section_durations with
    | [] => none
    | _ :: _ =>
        some (addToLast section_durations (audio_duration - section_durations.sum))
  else
    some section_durations

/-- The total character weight of `calculate_default_durations`
(src/app.py line 101): `sum(len(str(section)) for section in sections if section)`.
Python truthiness of a string (`if section`) is non-emptiness. -/
def total_chars (sections : List String) : Nat :=
  ((sections.filter fun s => !s.isEmpty).map String.length).sum

/-- Embeds `calculate_default_durations` (src/app.py lines 99-106):

    total_chars = sum(len(str(section)) for section in sections if section)
    if not total_chars:
        section_count = len(sections)
        return [float(total_duration / section_count)] * section_count if section_count else []
    return [float(max(5.0, (len(str(section)) / total_chars) * float(total_duration))) for section in sections]
-/
def calculate_default_durations (sections : List String) (total_duration : ℚ) :
    List ℚ :=
  if total_chars sections = 0 then
    if sections.length = 0 then []
    else List.replicate sections.length (total_duration / (sections.length : ℚ))
  else
    sections.map fun s =>
      max 5 (((s.length : ℚ) / (total_chars sections : ℚ)) * total_duration)

theorem addToLast_cons_cons (a : ℚ) (l : List ℚ) (x : ℚ) (h : l ≠ []) :
    addToLast (a :: l) x = a :: addToLast l x := by
  cases l with
  | nil => exact absurd rfl h
  | cons b r => rfl

theorem addToLast_concat (l : List ℚ) (a x : ℚ) :
    addToLast (l ++ [a]) x = l ++ [a + x] := by
  induction l with
  | nil => rfl
  | cons c l ih =>
      rw [List.cons_append, addToLast_cons_cons _ _ _ (by simp), ih,
        List.cons_append]

theorem addToLast_sum (l : List ℚ) (x : ℚ) (h : l ≠ []) :
    (addToLast l x).sum = l.sum + x := by
  obtain ⟨l', a, rfl⟩ := l.eq_nil_or_concat.resolve_left h
  simp only [List.concat_eq_append]
  rw [addToLast_concat]
  simp [List.sum_append]
  ring

theorem addToLast_eq (l : List ℚ) (x : ℚ) (h : l ≠ []) :
    addToLast l x = l.dropLast ++ [l.getLast h + x] := by
  obtain ⟨l', a, rfl⟩ := l.eq_nil_or_concat.resolve_left h
  simp only [List.concat_eq_append] at h ⊢
  rw [addToLast_concat, List.dropLast_concat]
  simp [List.getLast_concat]

theorem normalize_durations_short (a : ℚ) (rest : List ℚ) (T : ℚ)
    (hlt : (a :: rest).sum < T) :
    normalize_durations (a :: rest) T
      = some (addToLast (a :: rest) (T - (a :: rest).sum)) := by
  unfold normalize_durations
  rw [if_pos hlt]

theorem normalize_durations_long (ds : List ℚ) (T : ℚ) (hge : ¬ ds.sum < T) :
    normalize_durations ds T = some ds := by
  unfold normalize_durations
  rw [if_neg hge]

/-- C1: for every non-empty durations sequence and positive narration
duration, the normalization step succeeds and the sum of the output
durations is at least the narration duration. -/
theorem normalize_meets_narration (ds : List ℚ) (T : ℚ)
    (h : ds ≠ []) (_hT : 0 < T) :
    ∃ out, normalize_durations ds T = some out ∧ T ≤ out.sum := by
  by_cases hlt : ds.sum < T
  · cases ds with
    | nil => exact absurd rfl h
    | cons a rest =>
        refine ⟨_, normalize_durations_short a rest T hlt, ?_⟩
        rw [addToLast_sum _ _ (by simp)]
        linarith
  · exact ⟨ds, normalize_durations_long ds T hlt, le_of_not_lt hlt⟩

/-- Witness for C1 at `ds = [4, 4, 4]`, `T = 15`. -/
theorem normalize_meets_narration_witness :
    ∃ out, normalize_durations [4, 4, 4] 15 = some out ∧ (15 : ℚ) ≤ out.sum :=
  normalize_meets_narration [4, 4, 4] 15 (by simp) (by norm_num)

/-- C2: on a non-empty sequence the normalization step computes
`shortfall = T - sum`; with a positive shortfall it adds the entire
shortfall to the last element, leaving every other element unchanged, and
with shortfall ≤ 0 it returns the sequence unchanged; in particular
normalizing `[4, 4, 4]` against narration duration `15` yields `[4, 4, 7]`. -/
theorem normalize_shortfall_spec (ds : List ℚ) (T : ℚ) (h : ds ≠ []) :
    (0 < T - ds.sum →
      normalize_durations ds T
        = some (ds.dropLast ++ [ds.getLast h + (T - ds.sum)])) ∧
    (T - ds.sum ≤ 0 → normalize_durations ds T = some ds) ∧
    normalize_durations [4, 4, 4] 15 = some [4, 4, 7] := by
  refine ⟨?_, ?_, ?_⟩
  · intro hpos
    cases ds with
    | nil => exact absurd rfl h
    | cons a rest =>
        rw [normalize_durations_short a rest T (by linarith),
          addToLast_eq _ _ (by simp)]
  · intro hle
    exact normalize_durations_long ds T (by linarith)
  · rw [normalize_durations_short 4 [4, 4] 15 (by norm_num)]
    norm_num [addToLast]

/-- Witness for C2 at `ds = [2, 3]`, `T = 10`. -/
theorem normalize_shortfall_spec_witness :
    normalize_durations [2, 3] 10 = some [2, 8] := by
  have h := (normalize_shortfall_spec [2, 3] 10 (by simp)).1 (by norm_num)
  simp at h
  norm_num at h
  exact h

/-- C3: normalization is idempotent — feeding its own output back with the
same narration duration leaves the output unchanged. -/
theorem normalize_idempotent (ds : List ℚ) (T : ℚ)
    (h : ds ≠ []) (_hT : 0 < T) :
    (normalize_durations ds T).bind (fun out => normalize_durations out T)
      = normalize_durations ds T := by
  by_cases hlt : ds.sum < T
  · cases ds with
    | nil => exact absurd rfl h
    | cons a rest =>
        rw [normalize_durations_short a rest T hlt]
        have hsum : (addToLast (a :: rest) (T - (a :: rest).sum)).sum = T := by
          rw [addToLast_sum _ _ (by simp)]
          ring
        rw [Option.some_bind']
        rw [normalize_durations_long _ T (by rw [hsum]; exact lt_irrefl T)]
  · rw [normalize_durations_long ds T hlt, Option.some_bind']
    rw [normalize_durations_long ds T hlt]

/-- Witness for C3 at `ds = [4, 4, 4]`, `T = 15`. -/
theorem normalize_idempotent_witness :
    (normalize_durations [4, 4, 4] 15).bind
        (fun out => normalize_durations out 15)
      = normalize_durations [4, 4, 4] 15 :=
  normalize_idempotent [4, 4, 4] 15 (by simp) (by norm_num)

/-- C4: called on an empty durations sequence (with a positive narration
duration), the normalization step fails: `l[-1]` raises on an empty list and
the failure path returns `None`. -/
theorem normalize_empty_fails (T : ℚ) (hT : 0 < T) :
    normalize_durations [] T = none := by
  unfold normalize_durations
  rw [if_pos (by simpa using hT)]

/-- Witness for C4 at `T = 1`. -/
theorem normalize_empty_fails_witness :
    normalize_durations [] 1 = none :=
  normalize_empty_fails 1 (by norm_num)

theorem total_chars_eq_zero (sections : List String)
    (h : ∀ s ∈ sections, s = "") : total_chars sections = 0 := by
  unfold total_chars
  have hf : sections.filter (fun s => !s.isEmpty) = [] := by
    rw [List.filter_eq_nil_iff]
    intro a ha
    rw [h a ha]
    decide
  rw [hf]
  rfl

/-- C5: with zero total weight (all sections empty) the allocator falls back
to an even split of the total duration; `allocate(["", "", ""], 30)` returns
`[10, 10, 10]`, and on zero sections the result is the empty sequence. -/
theorem allocate_even_split (sections : List String) (T : ℚ)
    (h : ∀ s ∈ sections, s = "") :
    calculate_default_durations sections T
      = List.replicate sections.length (T / (sections.length : ℚ)) ∧
    calculate_default_durations ["", "", ""] 30 = [10, 10, 10] ∧
    calculate_default_durations [] T = [] := by
  refine ⟨?_, ?_, rfl⟩
  · unfold calculate_default_durations
    rw [if_pos (total_chars_eq_zero sections h)]
    by_cases hn : sections.length = 0
    · rw [if_pos hn, hn]
      rfl
    · rw [if_neg hn]
  · have h3 : calculate_default_durations ["", "", ""] 30
        = List.replicate 3 ((30 : ℚ) / 3) := by
      unfold calculate_default_durations
      rw [if_pos (total_chars_eq_zero _ (by intro s hs; simpa using hs))]
      simp
    rw [h3]
    norm_num [List.replicate]

/-- Witness for C5 at `sections = ["", ""]`, `T = 8`. -/
theorem allocate_even_split_witness :
    calculate_default_durations ["", ""] 8 = [4, 4] := by
  have h := (allocate_even_split ["", ""] 8 (by intro s hs; simpa using hs)).1
  rw [h]
  norm_num [List.replicate]

/-- C6 fails as stated: the even-split fallback applies no 5-second floor.
With `sections = ["", ""]` and positive total duration `4`, the allocator
returns `[2, 2]`, whose elements are below 5. -/
theorem allocate_floor_counterexample :
    (0 : ℚ) < 4 ∧
    calculate_default_durations ["", ""] 4 = [2, 2] ∧
    ¬ (5 ≤ (2 : ℚ)) := by
  refine ⟨by norm_num, ?_, by norm_num⟩
  have h2 : calculate_default_durations ["", ""] 4
      = List.replicate 2 ((4 : ℚ) / 2) := by
    unfold calculate_default_durations
    rw [if_pos (total_chars_eq_zero _ (by intro s hs; simpa using hs))]
    simp
  rw [h2]
  norm_num [List.replicate]

/-- C6 amended: the 5-second floor holds on the character-weighted branch,
i.e. whenever the total character weight is non-zero: every element of the
allocator output is then at least 5 seconds. -/
theorem allocate_floor_weighted (sections : List String) (T : ℚ)
    (hw : total_chars sections ≠ 0) (_hT : 0 < T) :
    (calculate_default_durations sections T).all
      (fun d => decide (5 ≤ d)) = true := by
  unfold calculate_default_durations
  rw [if_neg hw, List.all_eq_true]
  intro d hd
  simp only [List.mem_map] at hd
  obtain ⟨s, _, rfl⟩ := hd
  simp [le_max_left]

/-- Witness for C6 (amended) at `sections = ["abc"]`, `T = 1`. -/
theorem allocate_floor_weighted_witness :
    (calculate_default_durations ["abc"] 1).all
      (fun d => decide (5 ≤ d)) = true :=
  allocate_floor_weighted ["abc"] 1 (by decide) (by norm_num)

/-- One line of the concat-demuxer manifest file `image_list.txt`:
either a `file '...'` reference or a `duration ...` entry. -/
inductive ManifestLine where
  | fileRef (path : String)
  | duration (d : ℚ)
  deriving DecidableEq

/-- The name of the i-th resized image, `f"resized_-i-.jpg"`
(src/app.py line 121). -/
def resized_name (i : Nat) : String := "resized_" ++ toString i ++ ".jpg"

/-- The resized-image paths accumulated by the loop at src/app.py
lines 119-123: one `resized_i.jpg` per input image, in order. -/
def resized_images (section_images : List String) : List String :=
  (List.range section_images.length).map resized_name

/-- The body of the manifest-writing loop (src/app.py lines 127-129):
`for image, duration in zip(...)` emits a file line then a duration line;
like Python `zip`, it stops at the shorter of the two sequences. -/
def manifest_entries : List String → List ℚ → List ManifestLine
  | img :: imgs, d :: ds =>
      ManifestLine.fileRef img :: ManifestLine.duration d
        :: manifest_entries imgs ds
  | _, _ => []

/-- The full contents of `image_list.txt` (src/app.py lines 126-130): the
zipped timed entries followed by one final reference to the last resized
image with no duration line.  `none` models the IndexError raised by
`resized_images[-1]` when the list is empty, caught by the surrounding
`except` (lines 144-146). -/
def image_list_lines (resized : List String) (durations : List ℚ) :
    Option (List ManifestLine) :=
  resized.getLast?.map fun last =>
    manifest_entries resized durations ++ [ManifestLine.fileRef last]

/-- Manifest construction step of `generate_video_with_ffmpeg`: resize the
input images (a renaming, since scaling is external), then write the
manifest lines. -/
def build_manifest (section_images : List String)
    (section_durations : List ℚ) : Option (List ManifestLine) :=
  image_list_lines (resized_images section_images) section_durations

theorem resized_images_length (imgs : List String) :
    (resized_images imgs).length = imgs.length := by
  simp [resized_images]

theorem resized_images_getLast (imgs : List String) (h : imgs ≠ []) :
    (resized_images imgs).getLast?
      = some (resized_name (imgs.length - 1)) := by
  obtain ⟨m, hm⟩ := Nat.exists_eq_succ_of_ne_zero
    (by simpa [List.length_eq_zero] using h : imgs.length ≠ 0)
  unfold resized_images
  rw [hm, List.range_succ, List.map_append, List.map_singleton,
    List.getLast?_concat]
  norm_num

theorem manifest_entries_eq (a : List String) (b : List ℚ) :
    manifest_entries a b
      = ((a.zip b).map fun p =>
          [ManifestLine.fileRef p.1, ManifestLine.duration p.2]).flatten := by
  induction a generalizing b with
  | nil => cases b <;> rfl
  | cons x xs ih =>
      cases b with
      | nil => rfl
      | cons y ys => simp [manifest_entries, ih]

/-- C7 fails as stated: the manifest-writing loop uses `zip`, which silently
truncates to the shorter sequence; with 2 images and 1 duration the manifest
is built without any failure. -/
theorem manifest_mismatch_counterexample :
    (["a.jpg", "b.jpg"] : List String).length ≠ ([3] : List ℚ).length ∧
    build_manifest ["a.jpg", "b.jpg"] [3]
      = some [ManifestLine.fileRef "resized_0.jpg", ManifestLine.duration 3,
          ManifestLine.fileRef "resized_1.jpg"] := by
  constructor
  · decide
  · rfl

/-- C7 amended: manifest construction performs no length validation — it
pairs images with durations up to the shorter of the two sequences and
succeeds exactly when the images sequence is non-empty, whatever the length
of the durations sequence. -/
theorem manifest_no_length_check (section_images : List String)
    (section_durations : List ℚ) :
    (build_manifest section_images section_durations).isSome = true
      ↔ section_images ≠ [] := by
  constructor
  · intro hs hnil
    subst hnil
    simp [build_manifest, image_list_lines, resized_images] at hs
  · intro hnil
    unfold build_manifest image_list_lines
    rw [resized_images_getLast _ hnil, Option.map_some']
    rfl

/-- C8: with matching non-empty inputs, the manifest is exactly one
(file, duration) entry pair per slide in order, followed by one additional
reference to the last image with no trailing duration line. -/
theorem manifest_structure (section_images : List String)
    (section_durations : List ℚ) (h : section_images ≠ [])
    (_hlen : section_images.length = section_durations.length) :
    build_manifest section_images section_durations
      = some ((((resized_images section_images).zip section_durations).map
            (fun p =>
              [ManifestLine.fileRef p.1, ManifestLine.duration p.2])).flatten
          ++ [ManifestLine.fileRef
              (resized_name (section_images.length - 1))]) := by
  unfold build_manifest image_list_lines
  rw [resized_images_getLast _ h, Option.map_some', manifest_entries_eq]

/-- Witness for C8 at images `["a.jpg", "b.jpg"]`, durations `[1, 2]`. -/
theorem manifest_structure_witness :
    build_manifest ["a.jpg", "b.jpg"] [1, 2]
      = some [ManifestLine.fileRef "resized_0.jpg", ManifestLine.duration 1,
          ManifestLine.fileRef "resized_1.jpg", ManifestLine.duration 2,
          ManifestLine.fileRef "resized_1.jpg"] := by
  have h := manifest_structure ["a.jpg", "b.jpg"] [1, 2] (by simp) (by simp)
  rw [h]
  rfl

/-- Embeds `generate_section_content` (src/app.py lines 40-69) at the
collaborator boundary: `outcome` stands for the result of the remote
completion call.  On success the generated content is the return value;
on failure the exception is shown to the user via `st.error` and the
same error-message string is returned as the function value (line 69). -/
def generate_section_content (outcome : Except String String) : String :=
  match outcome with
  | Except.ok content => content
  | Except.error e => "Error generating content: " ++ e

/-- Embeds the Generate Script button handler (src/app.py lines 168-176):
`full_script` starts as the introduction plus a blank line, each section
result is appended followed by a blank line, the conclusion is appended,
and the result is stored in session state as `final_script`. -/
def generate_script_step (intro concl : String)
    (outcomes : List (Except String String)) : String :=
  (outcomes.foldl
    (fun full o => full ++ generate_section_content o ++ "\n\n")
    (intro ++ "\n\n")) ++ concl

theorem string_append_assoc (a b c : String) :
    a ++ b ++ c = a ++ (b ++ c) := by
  apply String.ext
  simp [String.data_append]

theorem script_foldl_eq_foldr (concl : String)
    (l : List (Except String String)) (acc : String) :
    (l.foldl (fun full o => full ++ generate_section_content o ++ "\n\n")
        acc) ++ concl
      = acc ++ l.foldr
          (fun o r => generate_section_content o ++ "\n\n" ++ r) concl := by
  induction l generalizing acc with
  | nil => rfl
  | cons x xs ih =>
      rw [List.foldl_cons, List.foldr_cons, ih,
        string_append_assoc acc (generate_section_content x) "\n\n",
        string_append_assoc acc
          (generate_section_content x ++ "\n\n") _,
        string_append_assoc (generate_section_content x) "\n\n" _]

/-- C9 fails as stated: a failed text-generation call is caught and shown
to the user, but the Generate Script step is not aborted — the error
message string is concatenated into the assembled script stored in session
state.  With introduction "I", conclusion "C" and one section whose
generation fails with message "boom", the final script literally embeds
the error text. -/
theorem script_error_incorporated :
    generate_script_step "I" "C" [Except.error "boom"]
      = "I\n\nError generating content: boom\n\nC" ∧
    generate_script_step "I" "C" [Except.error "boom"] ≠ "I\n\nC" := by
  constructor
  · rfl
  · decide

/-- C9 amended: every collaborator failure of the text-generation call is
caught at the call site and converted to a user-visible message, but the
step is not aborted: the error message becomes the section's content and
is incorporated, in order, into the assembled script stored in session
state. -/
theorem generation_error_not_aborted (intro concl e : String)
    (outcomes : List (Except String String)) :
    generate_section_content (Except.error e)
      = "Error generating content: " ++ e ∧
    generate_script_step intro concl outcomes
      = (intro ++ "\n\n")
        ++ outcomes.foldr
            (fun o r => generate_section_content o ++ "\n\n" ++ r) concl := by
  refine ⟨rfl, ?_⟩
  unfold generate_script_step
  rw [script_foldl_eq_foldr]

/-- Models the effect of `generate_video_with_ffmpeg` on the caller-shared
durations list (src/app.py line 116 mutates `section_durations` in place;
the caller passes `user_durations` at line 242): the value of the caller's
list after the call.  When normalization fails (empty list) no element was
written, so the list is unchanged. -/
def generate_video_durations_effect (audio_duration : ℚ)
    (section_durations : List ℚ) : List ℚ :=
  (normalize_durations section_durations audio_duration).getD
    section_durations

/-- C10: the normalization step mutates the caller's list in place — when
the probed audio duration exceeds the sum of the durations, the list
observed by the caller after `generate_video_with_ffmpeg` differs from the
one it passed in: its last element has grown by the shortfall. -/
theorem durations_mutated_in_place (ds : List ℚ) (T : ℚ)
    (h : ds ≠ []) (hs : ds.sum < T) :
    generate_video_durations_effect T ds ≠ ds ∧
    generate_video_durations_effect T ds
      = ds.dropLast ++ [ds.getLast h + (T - ds.sum)] := by
  have heff : generate_video_durations_effect T ds
      = ds.dropLast ++ [ds.getLast h + (T - ds.sum)] := by
    cases ds with
    | nil => exact absurd rfl h
    | cons a rest =>
        unfold generate_video_durations_effect
        rw [normalize_durations_short a rest T hs, Option.getD_some,
          addToLast_eq _ _ (by simp)]
  refine ⟨?_, heff⟩
  rw [heff]
  intro hcontra
  have hds : ds.dropLast ++ [ds.getLast h] = ds :=
    List.dropLast_append_getLast h
  have hcontra2 : ds.dropLast ++ [ds.getLast h + (T - ds.sum)]
      = ds.dropLast ++ [ds.getLast h] := hcontra.trans hds.symm
  have hlast : ds.getLast h + (T - ds.sum) = ds.getLast h :=
    (List.cons_eq_cons.mp (List.append_cancel_left hcontra2)).1
  linarith [hlast]

/-- Witness for C10 at `ds = [4, 4, 4]`, `T = 15`. -/
theorem durations_mutated_in_place_witness :
    generate_video_durations_effect 15 [4, 4, 4] ≠ [4, 4, 4] :=
  (durations_mutated_in_place [4, 4, 4] 15 (by simp) (by norm_num)).1

end Webinar
